import Mathlib

/-!
# Alien Zones — verification of the spec against the source

Shallow embedding of the `alien-zones` Foundry VTT module:
* `src/scripts/lib/zoneTypes.js` — zone type registry (`getZoneTypeConfig`),
* `src/scripts/lib/lib.js` — utilities (`isAlienZone`, `getTokenName`,
  `getZoneName`, `postZoneEntryMessage`),
* `src/scripts/module.js` — the transition correlator
  (`preUpdateToken` / `updateToken` hooks and the
  `tokenRegionsBeforeUpdate` map),
* `src/scripts/lib/zoneHandlers.js` — entry dispatcher and resource roll
  orchestrator (`handleZoneEntry`, `handleUnbreathableZone`,
  `triggerAirSupplyRoll`, `consumeAirSupply`).

Modelling conventions:
* JS falsy string fields (`name || "Unknown Token"`) are modelled as
  `String` where `""` stands for a missing/empty name.
* A JS `Set` built from an array is modelled as first-occurrence
  deduplication of a `List String` (`dedupKeepFirst`); `Set.has` is list
  membership.
* The host side effects (`ChatMessage.create`, `ui.notifications`,
  the YZE roll call) are modelled as an emitted `Event` trace; the one
  fallible effect the claims depend on — the entry-notification post —
  can throw, controlled by the environment (`HookEnv.postOk`); a throw
  aborts the enclosing hook exactly where the `await` sits in the source.
* The external YZE dice roll is an oracle `Except Unit Nat`: either it
  throws, or it returns the count of "1" faces
  (`game.alienrpg.rollArr.r2One || 0`).
-/

/-- A Foundry Region document, restricted to the fields this module reads:
`id`, `name`, and the `alien-zones` flag namespace
(`flags["alien-zones"].isAlienZone`, `flags["alien-zones"].zoneType`).
`none` stands for an absent flag. -/
structure Region where
  id : String
  name : String
  isAlienZoneFlag : Option Bool
  zoneType : Option String
deriving DecidableEq, Repr

/-- An Alien RPG consumable slot (`actor.system.consumables.air`). -/
structure Consumable where
  value : Int
deriving DecidableEq, Repr

/-- An actor item or armor piece, restricted to the fields
`consumeAirSupply` reads: `item.type`, `item.system.header.active`
(a *string*, compared against `"true"` in the source) and
`item.system.attributes.airsupply.value` (absent modelled as `none`,
the source reads it with `|| 0`). -/
structure Item where
  id : String
  itemType : String
  activeFlag : String
  air : Option Int
deriving DecidableEq, Repr

/-- An Alien RPG actor, restricted to the fields the orchestrator reads:
`actor.id`, `actor.name`, `actor.system.consumables.air` (absent when the
actor does not track air), the embedded items collection, and
`actor.token?.disposition`. -/
structure Actor where
  id : String
  name : String
  consumablesAir : Option Consumable
  items : List Item
  tokenDisposition : Option Int
deriving DecidableEq, Repr

/-- A token document, restricted to the fields the hooks read:
`id`, `name` (`""` for a missing name), `hasPlayerOwner`, the
host-maintained containment list `_regions`, and `tokenDocument.actor`. -/
structure TokenDoc where
  id : String
  name : String
  hasPlayerOwner : Bool
  regions : List String
  actor : Option Actor
deriving DecidableEq, Repr

/-! ## Zone type registry (`src/scripts/lib/zoneTypes.js`) -/

/-- A zone type configuration record (`ZONE_TYPE_CONFIGS` entries). -/
structure ZoneTypeConfig where
  label : String
  description : String
  hasChatMessage : Bool
  hasSupplyRoll : Bool
  supplyType : Option String
deriving DecidableEq, Repr

/-- The Basic config (`ZONE_TYPE_CONFIGS[ZONE_TYPES.BASIC]`). -/
def basicConfig : ZoneTypeConfig :=
  { label := "ALIENZONE.ZoneTypes.Basic"
    description := "ALIENZONE.ZoneTypes.BasicDesc"
    hasChatMessage := true
    hasSupplyRoll := false
    supplyType := none }

/-- The Unbreathable config (`ZONE_TYPE_CONFIGS[ZONE_TYPES.UNBREATHABLE]`). -/
def unbreathableConfig : ZoneTypeConfig :=
  { label := "ALIENZONE.ZoneTypes.Unbreathable"
    description := "ALIENZONE.ZoneTypes.UnbreathableDesc"
    hasChatMessage := true
    hasSupplyRoll := true
    supplyType := some "Air" }

/-- `ZONE_TYPE_CONFIGS` as the association list of its JS property keys:
the computed key `[ZONE_TYPES.BASIC]` with `BASIC = null` is the property
key `"null"` (JS string coercion of the key expression). -/
def ZONE_TYPE_CONFIGS : List (String × ZoneTypeConfig) :=
  [("null", basicConfig), ("unbreathable", unbreathableConfig)]

/-- JS property-key coercion of a `string|null` value: `null` becomes the
key `"null"`; a string is its own key. -/
def jsPropertyKey : Option String → String
  | none => "null"
  | some s => s

/-- `getZoneTypeConfig(zoneType)`:
`ZONE_TYPE_CONFIGS[zoneType] || ZONE_TYPE_CONFIGS[ZONE_TYPES.BASIC]`. -/
def getZoneTypeConfig (zoneType : Option String) : ZoneTypeConfig :=
  (ZONE_TYPE_CONFIGS.lookup (jsPropertyKey zoneType)).getD basicConfig

/-! ## Utilities (`src/scripts/lib/lib.js`) -/

/-- `isAlienZone(region)`:
`region.flags?.["alien-zones"]?.isAlienZone === true`. -/
def isAlienZone (region : Region) : Bool :=
  region.isAlienZoneFlag == some true

/-- `getTokenName(token)`: `token.name || "Unknown Token"`. -/
def getTokenName (token : TokenDoc) : String :=
  if token.name = "" then "Unknown Token" else token.name

/-- `getZoneName(region)`: `region.name || "Unknown Zone"`. -/
def getZoneName (region : Region) : String :=
  if region.name = "" then "Unknown Zone" else region.name

/-! ## Observable effects -/

/-- The observable side effects of the module, one constructor per host
collaborator call the claims mention. -/
inductive Event where
  /-- `ChatMessage.create` performed by `postZoneEntryMessage`. -/
  | chatEntry (messageKey tokenName zoneName : String)
  /-- `ChatMessage.create` of `ALIENZONE.Messages.SupplyRollPrompt`. -/
  | chatPrompt (tokenName zoneName supply : String)
  /-- `ChatMessage.create` of `ALIENZONE.Messages.NoAirSupplyDramatic`
  with the `CriticalDanger` flavor. -/
  | chatDramatic (tokenName zoneName : String)
  /-- `ui.notifications.error(...)` with the given i18n key. -/
  | uiError (key : String)
  /-- `ui.notifications.warn(...)` with the given i18n key. -/
  | uiWarn (key : String)
  /-- Entering the roll invocation (the dynamic import plus
  `yze.yzeRoll("supply", blind, true, label, 0, ..., airValue, ...)`). -/
  | rollAttempt (actorId : String) (blind : Bool) (supplyDice : Int)
deriving DecidableEq, Repr

/-- Whether an event is an invocation of the external roll collaborator. -/
def Event.isRollAttempt : Event → Bool
  | .rollAttempt _ _ _ => true
  | _ => false

/-- `postZoneEntryMessage(token, region)` as the chat event it creates:
message key selected from the region's `zoneType` flag, formatted with
`getTokenName`/`getZoneName`. (The `ChatMessage.create` call itself can
throw; the caller models that with its environment.) -/
def postZoneEntryMessage (token : TokenDoc) (region : Region) : Event :=
  Event.chatEntry
    (if region.zoneType == some "unbreathable" then
      "ALIENZONE.EnteredUnbreathableZone"
    else "ALIENZONE.EnteredZone")
    (getTokenName token) (getZoneName region)

/-! ## Transition correlator (`src/scripts/module.js`) -/

/-- Worker of `dedupKeepFirst`: walk the list keeping each element on its
first occurrence, tracking the elements already seen. -/
def dedupGo : List String → List String → List String
  | [], _ => []
  | a :: l, seen =>
    if seen.contains a then dedupGo l seen else a :: dedupGo l (a :: seen)

/-- First-occurrence deduplication: `new Set(list)` keeps the first
occurrence of each element, in insertion order. -/
def dedupKeepFirst (l : List String) : List String :=
  dedupGo l []

/-- The Pending-Transition Table `tokenRegionsBeforeUpdate`:
token id → containment snapshot (a deduplicated region-id list). -/
def Table := List (String × List String)
deriving DecidableEq, Repr

/-- `Map.set(k, v)`. -/
def Table.set (t : Table) (k : String) (v : List String) : Table :=
  (k, v) :: (t : List (String × List String)).filter (fun p => p.1 != k)

/-- `Map.get(k)` (`none` when absent). -/
def Table.get (t : Table) (k : String) : Option (List String) :=
  (t : List (String × List String)).lookup k

/-- `Map.delete(k)`. -/
def Table.del (t : Table) (k : String) : Table :=
  (t : List (String × List String)).filter (fun p => p.1 != k)

/-- The partial change record of a token update; only the presence of
`x`/`y` matters to the hooks. -/
structure Change where
  x : Option Int
  y : Option Int
deriving DecidableEq, Repr

/-- The `preUpdateToken` hook: when the change touches `x` or `y`,
snapshot `new Set(tokenDocument._regions || [])` into the table under the
token's id; otherwise do nothing. -/
def preUpdateToken (table : Table) (tok : TokenDoc) (change : Change) : Table :=
  if change.x.isSome || change.y.isSome then
    table.set tok.id (dedupKeepFirst tok.regions)
  else table

/-- Host environment of the `updateToken` hook: the scene region registry
`canvas.scene.regions.get`, and whether the entry-notification post for a
given region id succeeds (`false` = `ChatMessage.create` throws). -/
structure HookEnv where
  sceneRegions : String → Option Region
  postOk : String → Bool

/-- Result of one `updateToken` hook run: the table afterwards, the
events emitted in order, and whether the hook ran to completion
(`ok = false` means an awaited post threw and the rest of the hook body,
including the table cleanup, never ran). -/
structure HookResult where
  table : Table
  events : List Event
  ok : Bool
deriving Repr

/-- The entered-regions loop of `updateToken` (source lines 68–76): for
each id of the new containment set, skip it when the old set has it;
resolve it in the scene registry, skipping silently when unresolvable;
otherwise await `postZoneEntryMessage` — a throw aborts the loop. -/
def processEntries (env : HookEnv) (tok : TokenDoc) (oldIds : List String) :
    List String → List Event × Bool
  | [] => ([], true)
  | rid :: rest =>
    if oldIds.contains rid then processEntries env tok oldIds rest
    else
      match env.sceneRegions rid with
      | none => processEntries env tok oldIds rest
      | some region =>
        if env.postOk rid then
          let res := processEntries env tok oldIds rest
          (postZoneEntryMessage tok region :: res.1, res.2)
        else ([], false)

/-- The `updateToken` hook (source lines 48–80): return unchanged when the
change touches no position field; return unchanged (without table cleanup)
when the token has no player owner; otherwise read the prior snapshot
(`|| new Set()`), diff against the current `_regions`, post an entry
message per resolvable entered region, and delete the table entry — the
delete sits after the loop, so it is skipped when a post throws. -/
def updateToken (env : HookEnv) (table : Table) (tok : TokenDoc)
    (change : Change) : HookResult :=
  if change.x.isNone && change.y.isNone then ⟨table, [], true⟩
  else if !tok.hasPlayerOwner then ⟨table, [], true⟩
  else
    let oldIds := (table.get tok.id).getD []
    let newIds := dedupKeepFirst tok.regions
    let res := processEntries env tok oldIds newIds
    if res.2 then ⟨table.del tok.id, res.1, true⟩
    else ⟨table, res.1, false⟩

/-- One full move cycle of a token: the host fires `preUpdateToken` with
the pre-move document (containment `old`), applies the move, then fires
`updateToken` with the post-move document (containment `new`). -/
def moveCycle (env : HookEnv) (table : Table) (tok : TokenDoc)
    (old new : List String) (change : Change) : HookResult :=
  updateToken env (preUpdateToken table { tok with regions := old } change)
    { tok with regions := new } change

/-- The entered-region computation of the correlator in isolation
(source lines 68–69 and the module tests): the ids of the new containment
set that the old set does not contain. -/
def enteredIds (oldIds newIds : List String) : List String :=
  (dedupKeepFirst newIds).filter (fun rid => !oldIds.contains rid)

/-! ## Resource depletion (`consumeAirSupply`, `src/scripts/lib/zoneHandlers.js`) -/

/-- The eligibility predicate of `consumeAirSupply`'s filter:
`item.system.header?.active === "true"`,
`(item.system.attributes?.airsupply?.value || 0) > 0`, and
`item.type === "item" || item.type === "armor"`. -/
def airEligible (it : Item) : Bool :=
  it.activeFlag == "true" && (it.air.getD 0) > 0
    && (it.itemType == "item" || it.itemType == "armor")

/-- `actor.items.filter(...)` of `consumeAirSupply`. -/
def filterAirItems (items : List Item) : List Item :=
  items.filter airEligible

/-- The air value read inside the consumption loop
(`item.system.attributes.airsupply.value`; the filter guarantees it is
present and positive). -/
def itemAirValue (it : Item) : Int :=
  it.air.getD 0

/-- Stable insertion into a list sorted ascending by air value:
walk past every element whose air value is at most ours. This realises
`itemsWithAir.sort((a, b) => airA - airB)` (a stable ascending sort). -/
def insertByAir (x : Item) : List Item → List Item
  | [] => [x]
  | y :: ys =>
    if itemAirValue x < itemAirValue y then x :: y :: ys
    else y :: insertByAir x ys

/-- Stable ascending sort by air value (insertion sort). -/
def sortByAir (l : List Item) : List Item :=
  l.foldr insertByAir []

/-- The consumption loop of `consumeAirSupply` (source lines 98–111):
break once `remaining <= 0`, else consume `min(remaining, currentAir)`
from the head holder (persisting `currentAir - toConsume`) and continue
with `remaining - toConsume`. Returns the holders with their final values,
in processing order, together with the final `remaining`. -/
def consumeLoop : List Item → Int → List Item × Int
  | [], remaining => ([], remaining)
  | it :: rest, remaining =>
    if remaining ≤ 0 then (it :: rest, remaining)
    else
      let currentAir := itemAirValue it
      let toConsume := min remaining currentAir
      let newAir := currentAir - toConsume
      let res := consumeLoop rest (remaining - toConsume)
      ({ it with air := some newAir } :: res.1, res.2)

/-- Result of `consumeAirSupply`: the eligible holders (ascending order,
post-consumption values), the unconsumed remainder, and whether the
non-fatal under-supply `console.warn` fired (`remaining > 0` at the end). -/
structure ConsumeResult where
  holders : List Item
  remaining : Int
  underSupplyWarn : Bool
deriving DecidableEq, Repr

/-- `consumeAirSupply(actor, amount)` over the actor's item list:
filter to active holders with positive air of type item/armor, sort
ascending by air value, consume greedily, and warn when holders are
exhausted with `remaining > 0`. -/
def consumeAirSupply (items : List Item) (amount : Int) : ConsumeResult :=
  let itemsWithAir := sortByAir (filterAirItems items)
  let res := consumeLoop itemsWithAir amount
  ⟨res.1, res.2, res.2 > 0⟩

/-- The final air value a depletion run leaves on the holder with the
given id (`none` when no eligible holder has that id). -/
def finalAir (res : ConsumeResult) (id : String) : Option Int :=
  (res.holders.find? (fun it => it.id == id)).map itemAirValue

/-! ## Resource roll orchestrator (`triggerAirSupplyRoll`) -/

/-- `triggerAirSupplyRoll(actor, region)` with the external YZE roll as an
oracle (`.error ()` = the dynamic import or `yze.yzeRoll` throws;
`.ok ones` = the call returns and `game.alienrpg.rollArr.r2One || 0` reads
as `ones`). Returns the emitted events in order and the actor's items
after any depletion. Paths, in source order:
1. no `actor.system.consumables?.air` → `SupplyRollPrompt` chat, return;
2. `airValue <= 0` → dramatic chat + `ui.notifications.error`, return;
3. roll attempt; on throw → log + `SupplyRollPrompt` chat fallback;
4. on return, `ones > 0` → `consumeAirSupply(actor, ones)`. -/
def triggerAirSupplyRoll (oracle : Except Unit Nat) (actor : Actor)
    (regionName : String) : List Event × List Item :=
  match actor.consumablesAir with
  | none => ([Event.chatPrompt actor.name regionName "Air"], actor.items)
  | some air =>
    if air.value ≤ 0 then
      ([Event.chatDramatic actor.name regionName,
        Event.uiError "ALIENZONE.Messages.NoAirSupply"], actor.items)
    else
      let blind := actor.tokenDisposition == some (-1)
      match oracle with
      | .error _ =>
        ([Event.rollAttempt actor.id blind air.value,
          Event.chatPrompt actor.name regionName "Air"], actor.items)
      | .ok ones =>
        if 0 < ones then
          ([Event.rollAttempt actor.id blind air.value],
            (consumeAirSupply actor.items (Int.ofNat ones)).holders)
        else ([Event.rollAttempt actor.id blind air.value], actor.items)

/-! ## Entry dispatcher (`handleZoneEntry`, `handleUnbreathableZone`) -/

/-- Environment of the dispatcher: the active game system id and the roll
oracle. -/
structure GameEnv where
  systemId : String
  rollOracle : Except Unit Nat

/-- `handleUnbreathableZone(tokenDocument, region)`: require the
`alienrpg` system (warn and return otherwise), require an actor (log and
return otherwise), then run `triggerAirSupplyRoll` inside a try/catch. In
this model the orchestrator is total (its only throwing collaborator, the
roll, is caught inside it), so the catch branch is unreachable. -/
def handleUnbreathableZone (genv : GameEnv) (tok : TokenDoc)
    (region : Region) : List Event :=
  if genv.systemId != "alienrpg" then
    [Event.uiWarn "ALIENZONE.Errors.RequiresAlienRPG"]
  else
    match tok.actor with
    | none => []
    | some actor => (triggerAirSupplyRoll genv.rollOracle actor region.name).1

/-- `handleZoneEntry(tokenDocument, region)`: read the region's `zoneType`
flag, resolve the config, post the entry chat message when
`config.hasChatMessage` (this await is *not* wrapped in try/catch — a
throw propagates, modelled by the `Bool` component), then dispatch the
`unbreathable` case to its handler. -/
def handleZoneEntry (env : HookEnv) (genv : GameEnv) (tok : TokenDoc)
    (region : Region) : List Event × Bool :=
  let config := getZoneTypeConfig region.zoneType
  if config.hasChatMessage && !env.postOk region.id then ([], false)
  else
    let evs := if config.hasChatMessage then [postZoneEntryMessage tok region] else []
    match region.zoneType with
    | some "unbreathable" => (evs ++ handleUnbreathableZone genv tok region, true)
    | _ => (evs, true)

/-! ## Helper lemmas -/

theorem mem_dedupGo (l : List String) (x : String) :
    ∀ seen, x ∈ dedupGo l seen ↔ (x ∈ l ∧ x ∉ seen) := by
  induction l with
  | nil => intro seen; simp [dedupGo]
  | cons a l ih =>
    intro seen
    by_cases h : seen.contains a = true
    · have ha : a ∈ seen := List.elem_iff.mp h
      simp only [dedupGo]
      rw [if_pos h, ih]
      simp only [List.mem_cons]
      constructor
      · rintro ⟨hl, hs⟩; exact ⟨Or.inr hl, hs⟩
      · rintro ⟨hal, hs⟩
        cases hal with
        | inl hxa => exact absurd (hxa ▸ ha) hs
        | inr hl => exact ⟨hl, hs⟩
    · have ha : a ∉ seen := fun hm => h (List.elem_iff.mpr hm)
      simp only [dedupGo]
      rw [if_neg h]
      simp only [List.mem_cons, ih]
      constructor
      · rintro (hxa | ⟨hl, hs⟩)
        · exact ⟨Or.inl hxa, hxa ▸ ha⟩
        · exact ⟨Or.inr hl, fun hm => hs (Or.inr hm)⟩
      · rintro ⟨hal, hs⟩
        cases hal with
        | inl hxa => exact Or.inl hxa
        | inr hl =>
          by_cases hxa : x = a
          · exact Or.inl hxa
          · refine Or.inr ⟨hl, fun hm => ?_⟩
            cases hm with
            | inl h1 => exact hxa h1
            | inr h2 => exact hs h2

theorem mem_dedupKeepFirst (l : List String) (x : String) :
    x ∈ dedupKeepFirst l ↔ x ∈ l := by
  simp [dedupKeepFirst, mem_dedupGo]

theorem mem_enteredIds (oldIds newIds : List String) (r : String) :
    r ∈ enteredIds oldIds newIds ↔ (r ∈ newIds ∧ r ∉ oldIds) := by
  simp only [enteredIds, List.mem_filter, mem_dedupKeepFirst,
    Bool.not_eq_true']
  constructor
  · rintro ⟨hn, ho⟩
    refine ⟨hn, fun hm => ?_⟩
    have h2 : oldIds.contains r = true := List.elem_iff.mpr hm
    rw [ho] at h2
    simp at h2
  · rintro ⟨hn, ho⟩
    refine ⟨hn, ?_⟩
    cases hc : oldIds.contains r with
    | false => rfl
    | true => exact absurd (List.elem_iff.mp hc) ho

/-! ## Claim C1 -/

/-- **C1**: for every prior containment set `P` and current containment
set `C`, the entered-region computation of the after-move handler is
exactly the set difference `C \ P`: a region id is entered iff it is in
`C` and not in `P` (so removals never yield events), the result is
order-independent (it depends on the two inputs only through membership),
and the five concrete examples of the spec hold. -/
theorem entered_is_set_difference :
    (∀ (prior current : List String) (r : String),
        r ∈ enteredIds prior current ↔ (r ∈ current ∧ r ∉ prior))
    ∧ (∀ (prior₁ prior₂ current₁ current₂ : List String),
        (∀ x, x ∈ prior₁ ↔ x ∈ prior₂) →
        (∀ x, x ∈ current₁ ↔ x ∈ current₂) →
        ∀ r, (r ∈ enteredIds prior₁ current₁ ↔ r ∈ enteredIds prior₂ current₂))
    ∧ enteredIds [] ["r1"] = ["r1"]
    ∧ enteredIds ["r1"] ["r1"] = []
    ∧ enteredIds ["r1"] [] = []
    ∧ enteredIds [] ["r1", "r2"] = ["r1", "r2"]
    ∧ enteredIds ["r1"] ["r2"] = ["r2"] := by
  refine ⟨fun prior current r => mem_enteredIds prior current r,
    ?_, rfl, rfl, rfl, rfl, rfl⟩
  intro p₁ p₂ c₁ c₂ hp hc r
  rw [mem_enteredIds, mem_enteredIds, hp, hc]

/-- Witness for C1 at concrete inputs. -/
theorem entered_is_set_difference_witness :
    ("r2" ∈ enteredIds ["r1"] ["r1", "r2"] ↔
      ("r2" ∈ ["r1", "r2"] ∧ "r2" ∉ ["r1"]))
    ∧ ("r2" ∈ enteredIds ["r1", "r1"] ["r2", "r2"] ↔
      "r2" ∈ enteredIds ["r1"] ["r2"]) :=
  ⟨entered_is_set_difference.1 ["r1"] ["r1", "r2"] "r2",
    entered_is_set_difference.2.1 ["r1", "r1"] ["r1"] ["r2", "r2"] ["r2"]
      (by simp) (by simp) "r2"⟩

/-! ## Claim C6 -/

/-- **C6**: `getZoneTypeConfig` is total (a Lean function, it never
throws): `null` (`none`) and every zone-type tag other than
`"unbreathable"` resolve to the Basic config, whose notify-on-entry flag
is `true` and whose requires-resource-roll flag is `false`; the
`"unbreathable"` tag resolves to a config whose `hasSupplyRoll` flag is
`true`. -/
theorem getZoneTypeConfig_total_with_basic_fallback :
    getZoneTypeConfig none = basicConfig
    ∧ (∀ s : String, s ≠ "unbreathable" → getZoneTypeConfig (some s) = basicConfig)
    ∧ basicConfig.hasChatMessage = true
    ∧ basicConfig.hasSupplyRoll = false
    ∧ (getZoneTypeConfig (some "unbreathable")).hasSupplyRoll = true := by
  refine ⟨rfl, ?_, rfl, rfl, rfl⟩
  intro s hs
  have h2 : (s == "unbreathable") = false := by simp [hs]
  by_cases h0 : s = "null"
  · subst h0; rfl
  · have h1 : (s == "null") = false := by simp [h0]
    simp [getZoneTypeConfig, jsPropertyKey, ZONE_TYPE_CONFIGS, List.lookup,
      h1, h2]

/-- Witness for C6 at the spec's concrete inputs. -/
theorem getZoneTypeConfig_total_with_basic_fallback_witness :
    getZoneTypeConfig (some "unknown-tag") = basicConfig
    ∧ getZoneTypeConfig none = basicConfig :=
  ⟨getZoneTypeConfig_total_with_basic_fallback.2.1 "unknown-tag" (by decide),
    getZoneTypeConfig_total_with_basic_fallback.1⟩

/-! ### Depletion lemmas -/

theorem mem_insertByAir (x z : Item) :
    ∀ l : List Item, z ∈ insertByAir x l ↔ (z = x ∨ z ∈ l) := by
  intro l
  induction l with
  | nil => simp [insertByAir]
  | cons y ys ih =>
    by_cases h : itemAirValue x < itemAirValue y
    · simp [insertByAir, if_pos h]
    · simp only [insertByAir, if_neg h, List.mem_cons, ih]
      tauto

theorem mem_sortByAir (z : Item) (l : List Item) :
    z ∈ sortByAir l ↔ z ∈ l := by
  induction l with
  | nil => simp [sortByAir]
  | cons y ys ih =>
    show z ∈ insertByAir y (sortByAir ys) ↔ _
    rw [mem_insertByAir]
    simp [List.mem_cons, ih]

theorem pairwise_insertByAir (x : Item) :
    ∀ l : List Item,
      l.Pairwise (fun a b => itemAirValue a ≤ itemAirValue b) →
      (insertByAir x l).Pairwise (fun a b => itemAirValue a ≤ itemAirValue b) := by
  intro l
  induction l with
  | nil => intro _; simp [insertByAir]
  | cons y ys ih =>
    intro h
    rw [List.pairwise_cons] at h
    by_cases hxy : itemAirValue x < itemAirValue y
    · rw [insertByAir, if_pos hxy, List.pairwise_cons]
      refine ⟨?_, List.pairwise_cons.mpr h⟩
      intro z hz
      rcases List.mem_cons.mp hz with rfl | hz'
      · exact le_of_lt hxy
      · exact le_trans (le_of_lt hxy) (h.1 z hz')
    · rw [insertByAir, if_neg hxy, List.pairwise_cons]
      refine ⟨?_, ih h.2⟩
      intro z hz
      rcases (mem_insertByAir x z ys).mp hz with rfl | hz'
      · exact le_of_not_lt hxy
      · exact h.1 z hz'

theorem sortByAir_sorted (l : List Item) :
    (sortByAir l).Pairwise (fun a b => itemAirValue a ≤ itemAirValue b) := by
  induction l with
  | nil => simp [sortByAir]
  | cons y ys ih => exact pairwise_insertByAir y (sortByAir ys) ih

/-- Total air carried by a list of holders. -/
def totalAir (l : List Item) : Int :=
  (l.map itemAirValue).sum

theorem totalAir_insertByAir (x : Item) :
    ∀ l : List Item, totalAir (insertByAir x l) = itemAirValue x + totalAir l := by
  intro l
  induction l with
  | nil => simp [insertByAir, totalAir]
  | cons y ys ih =>
    by_cases h : itemAirValue x < itemAirValue y
    · simp [insertByAir, if_pos h, totalAir]
    · simp only [insertByAir, if_neg h]
      have e1 : totalAir (y :: insertByAir x ys)
          = itemAirValue y + totalAir (insertByAir x ys) := by simp [totalAir]
      have e2 : totalAir (y :: ys) = itemAirValue y + totalAir ys := by
        simp [totalAir]
      rw [e1, ih, e2]
      ring

theorem totalAir_sortByAir (l : List Item) :
    totalAir (sortByAir l) = totalAir l := by
  induction l with
  | nil => rfl
  | cons y ys ih =>
    show totalAir (insertByAir y (sortByAir ys)) = _
    rw [totalAir_insertByAir, ih]
    simp [totalAir]

theorem airEligible_pos (it : Item) (h : airEligible it = true) :
    0 < itemAirValue it := by
  simp only [airEligible, Bool.and_eq_true, decide_eq_true_eq] at h
  exact h.1.2

/-- When every holder carries positive air and the request covers the
whole total, the consumption loop zeroes every holder and ends with
exactly the uncovered remainder. -/
theorem consumeLoop_exhaust :
    ∀ (l : List Item) (remaining : Int),
      (∀ it ∈ l, 0 < itemAirValue it) →
      totalAir l ≤ remaining →
      (∀ it ∈ (consumeLoop l remaining).1, it.air = some 0)
        ∧ (consumeLoop l remaining).2 = remaining - totalAir l := by
  intro l
  induction l with
  | nil =>
    intro remaining _ _
    refine ⟨fun it h => absurd h (by simp [consumeLoop]), ?_⟩
    simp [consumeLoop, totalAir]
  | cons it rest ih =>
    intro remaining hpos htot
    have hv : 0 < itemAirValue it := hpos it (List.mem_cons_self it rest)
    have hrest : ∀ x ∈ rest, 0 < itemAirValue x :=
      fun x hx => hpos x (List.mem_cons_of_mem it hx)
    have hrestsum : 0 ≤ totalAir rest :=
      List.sum_nonneg (by
        intro x hx
        rcases List.mem_map.mp hx with ⟨y, hy, rfl⟩
        exact le_of_lt (hrest y hy))
    have htotcons : totalAir (it :: rest) = itemAirValue it + totalAir rest := by
      simp [totalAir]
    have hiv : itemAirValue it ≤ remaining := by
      rw [htotcons] at htot; linarith
    have hrem : ¬(remaining ≤ 0) := by linarith
    have hmin : min remaining (itemAirValue it) = itemAirValue it :=
      min_eq_right hiv
    have ihr := ih (remaining - itemAirValue it) hrest (by rw [htotcons] at htot; linarith)
    simp only [consumeLoop, if_neg hrem, hmin]
    constructor
    · intro x hx
      rcases List.mem_cons.mp hx with rfl | hx'
      · simp
      · exact ihr.1 x hx'
    · rw [ihr.2, htotcons]
      ring

/-! ## Claim C5 -/

/-- **C5**: `consumeAirSupply` restricts to active item/armor holders
carrying positive air (the filter-membership characterisation), processes
them sorted ascending by current air value (the processed list is
pairwise `≤` on air), and on the spec's example — holders of values 3, 1
and 5, amount 4 — the value-1 holder ends at 0, the value-3 holder ends
at 0, the value-5 holder is unchanged, and the remaining amount ends at
0 (so no under-supply warning fires). -/
theorem consumeAirSupply_ascending_greedy :
    (∀ (items : List Item) (it : Item),
        it ∈ filterAirItems items ↔
          (it ∈ items ∧ it.activeFlag = "true" ∧ 0 < it.air.getD 0
            ∧ (it.itemType = "item" ∨ it.itemType = "armor")))
    ∧ (∀ items : List Item,
        (sortByAir (filterAirItems items)).Pairwise
          (fun a b => itemAirValue a ≤ itemAirValue b))
    ∧ finalAir (consumeAirSupply
        [⟨"a", "item", "true", some 3⟩, ⟨"b", "item", "true", some 1⟩,
          ⟨"c", "armor", "true", some 5⟩] 4) "b" = some 0
    ∧ finalAir (consumeAirSupply
        [⟨"a", "item", "true", some 3⟩, ⟨"b", "item", "true", some 1⟩,
          ⟨"c", "armor", "true", some 5⟩] 4) "a" = some 0
    ∧ finalAir (consumeAirSupply
        [⟨"a", "item", "true", some 3⟩, ⟨"b", "item", "true", some 1⟩,
          ⟨"c", "armor", "true", some 5⟩] 4) "c" = some 5
    ∧ (consumeAirSupply
        [⟨"a", "item", "true", some 3⟩, ⟨"b", "item", "true", some 1⟩,
          ⟨"c", "armor", "true", some 5⟩] 4).remaining = 0
    ∧ (consumeAirSupply
        [⟨"a", "item", "true", some 3⟩, ⟨"b", "item", "true", some 1⟩,
          ⟨"c", "armor", "true", some 5⟩] 4).underSupplyWarn = false := by
  refine ⟨?_, fun items => sortByAir_sorted (filterAirItems items),
    rfl, rfl, rfl, rfl, rfl⟩
  intro items it
  simp only [filterAirItems, List.mem_filter, airEligible, Bool.and_eq_true,
    Bool.or_eq_true, beq_iff_eq, decide_eq_true_eq]
  tauto

/-- Witness for C5 at concrete inputs. -/
theorem consumeAirSupply_ascending_greedy_witness :
    ((⟨"b", "item", "true", some 1⟩ : Item) ∈ filterAirItems
        [⟨"a", "item", "true", some 3⟩, ⟨"b", "item", "true", some 1⟩,
          ⟨"c", "armor", "true", some 5⟩] ↔
      ((⟨"b", "item", "true", some 1⟩ : Item) ∈
          ([⟨"a", "item", "true", some 3⟩, ⟨"b", "item", "true", some 1⟩,
            ⟨"c", "armor", "true", some 5⟩] : List Item)
        ∧ (Item.mk "b" "item" "true" (some 1)).activeFlag = "true"
        ∧ 0 < (Item.mk "b" "item" "true" (some 1)).air.getD 0
        ∧ ((Item.mk "b" "item" "true" (some 1)).itemType = "item"
            ∨ (Item.mk "b" "item" "true" (some 1)).itemType = "armor")))
    ∧ (sortByAir (filterAirItems
        [⟨"a", "item", "true", some 3⟩, ⟨"b", "item", "true", some 1⟩,
          ⟨"c", "armor", "true", some 5⟩])).Pairwise
        (fun a b => itemAirValue a ≤ itemAirValue b) :=
  ⟨consumeAirSupply_ascending_greedy.1
      [⟨"a", "item", "true", some 3⟩, ⟨"b", "item", "true", some 1⟩,
        ⟨"c", "armor", "true", some 5⟩] ⟨"b", "item", "true", some 1⟩,
    consumeAirSupply_ascending_greedy.2.1
      [⟨"a", "item", "true", some 3⟩, ⟨"b", "item", "true", some 1⟩,
        ⟨"c", "armor", "true", some 5⟩]⟩

/-! ## Claim C8 -/

/-- **C8**: when the requested amount strictly exceeds the total air
available across eligible holders, every eligible holder ends at air 0,
the final remaining amount is exactly the uncovered remainder (with which
the non-fatal under-supply warning fires), and — the function being total
— no exception is raised. -/
theorem consumeAirSupply_under_supply (items : List Item) (amount : Int)
    (h : totalAir (filterAirItems items) < amount) :
    (∀ it ∈ (consumeAirSupply items amount).holders, it.air = some 0)
    ∧ (consumeAirSupply items amount).remaining
        = amount - totalAir (filterAirItems items)
    ∧ (consumeAirSupply items amount).underSupplyWarn = true := by
  have hpos : ∀ it ∈ sortByAir (filterAirItems items), 0 < itemAirValue it := by
    intro it hit
    have hmem : it ∈ filterAirItems items := (mem_sortByAir it _).mp hit
    exact airEligible_pos it (List.mem_filter.mp hmem).2
  have htot : totalAir (sortByAir (filterAirItems items)) ≤ amount := by
    rw [totalAir_sortByAir]; linarith
  have hc := consumeLoop_exhaust (sortByAir (filterAirItems items)) amount hpos htot
  have hrem : (consumeLoop (sortByAir (filterAirItems items)) amount).2
      = amount - totalAir (filterAirItems items) := by
    rw [hc.2, totalAir_sortByAir]
  have hH : (consumeAirSupply items amount).holders
      = (consumeLoop (sortByAir (filterAirItems items)) amount).1 := rfl
  have hR : (consumeAirSupply items amount).remaining
      = (consumeLoop (sortByAir (filterAirItems items)) amount).2 := rfl
  refine ⟨?_, ?_, ?_⟩
  · intro it hit
    rw [hH] at hit
    exact hc.1 it hit
  · rw [hR, hrem]
  · show decide ((consumeLoop (sortByAir (filterAirItems items)) amount).2 > 0) = true
    rw [decide_eq_true_eq, hrem]
    linarith

/-- Witness for C8: amount 100 against holders totalling 9. -/
theorem consumeAirSupply_under_supply_witness :
    (∀ it ∈ (consumeAirSupply
        [⟨"a", "item", "true", some 3⟩, ⟨"b", "item", "true", some 1⟩,
          ⟨"c", "armor", "true", some 5⟩] 100).holders, it.air = some 0)
    ∧ (consumeAirSupply
        [⟨"a", "item", "true", some 3⟩, ⟨"b", "item", "true", some 1⟩,
          ⟨"c", "armor", "true", some 5⟩] 100).remaining
        = 100 - totalAir (filterAirItems
            [⟨"a", "item", "true", some 3⟩, ⟨"b", "item", "true", some 1⟩,
              ⟨"c", "armor", "true", some 5⟩])
    ∧ (consumeAirSupply
        [⟨"a", "item", "true", some 3⟩, ⟨"b", "item", "true", some 1⟩,
          ⟨"c", "armor", "true", some 5⟩] 100).underSupplyWarn = true :=
  consumeAirSupply_under_supply
    [⟨"a", "item", "true", some 3⟩, ⟨"b", "item", "true", some 1⟩,
      ⟨"c", "armor", "true", some 5⟩] 100 (by decide)

/-! ## Claim C7 -/

/-- **C7**: when the actor's current air resource total is `≤ 0`,
`triggerAirSupplyRoll` emits exactly the dramatic/critical-danger chat
message and the user-facing alert, invokes the external roll collaborator
zero times, and leaves every resource holder unmutated. -/
theorem zero_air_short_circuit (oracle : Except Unit Nat) (actor : Actor)
    (zoneName : String) (air : Consumable)
    (hair : actor.consumablesAir = some air) (hzero : air.value ≤ 0) :
    (triggerAirSupplyRoll oracle actor zoneName).1
        = [Event.chatDramatic actor.name zoneName,
          Event.uiError "ALIENZONE.Messages.NoAirSupply"]
    ∧ (triggerAirSupplyRoll oracle actor zoneName).1.countP Event.isRollAttempt = 0
    ∧ (triggerAirSupplyRoll oracle actor zoneName).2 = actor.items := by
  have he : triggerAirSupplyRoll oracle actor zoneName
      = ([Event.chatDramatic actor.name zoneName,
          Event.uiError "ALIENZONE.Messages.NoAirSupply"], actor.items) := by
    simp only [triggerAirSupplyRoll, hair]
    rw [if_pos hzero]
  rw [he]
  exact ⟨rfl, rfl, rfl⟩

/-- Witness for C7 at a concrete zero-air actor. -/
theorem zero_air_short_circuit_witness :
    (triggerAirSupplyRoll (Except.ok 2)
        ⟨"act1", "Ripley", some ⟨0⟩, [], none⟩ "Vacuum").1
        = [Event.chatDramatic "Ripley" "Vacuum",
          Event.uiError "ALIENZONE.Messages.NoAirSupply"]
    ∧ (triggerAirSupplyRoll (Except.ok 2)
        ⟨"act1", "Ripley", some ⟨0⟩, [], none⟩ "Vacuum").1.countP
          Event.isRollAttempt = 0
    ∧ (triggerAirSupplyRoll (Except.ok 2)
        ⟨"act1", "Ripley", some ⟨0⟩, [], none⟩ "Vacuum").2
        = (Actor.mk "act1" "Ripley" (some ⟨0⟩) [] none).items :=
  zero_air_short_circuit (Except.ok 2) ⟨"act1", "Ripley", some ⟨0⟩, [], none⟩
    "Vacuum" ⟨0⟩ rfl (by decide)

/-! ## Claim C9 -/

/-- **C9**: when the external roll invocation throws,
`triggerAirSupplyRoll` returns normally (the exception is caught), emits
the manual-prompt fallback chat message, and that message is exactly the
same `SupplyRollPrompt` message that the missing-resource-tracking path
emits; no holder is mutated on this path. -/
theorem roll_failure_fallback_prompt (actor : Actor) (zoneName : String)
    (air : Consumable) (hair : actor.consumablesAir = some air)
    (hpos : 0 < air.value) :
    (triggerAirSupplyRoll (Except.error ()) actor zoneName).1
      = [Event.rollAttempt actor.id (actor.tokenDisposition == some (-1)) air.value,
        Event.chatPrompt actor.name zoneName "Air"]
    ∧ (∀ oracle : Except Unit Nat,
        (triggerAirSupplyRoll oracle
            { actor with consumablesAir := none } zoneName).1
          = [Event.chatPrompt actor.name zoneName "Air"])
    ∧ (triggerAirSupplyRoll (Except.error ()) actor zoneName).2 = actor.items := by
  have hneg : ¬(air.value ≤ 0) := not_le.mpr hpos
  have he : triggerAirSupplyRoll (Except.error ()) actor zoneName
      = ([Event.rollAttempt actor.id (actor.tokenDisposition == some (-1)) air.value,
          Event.chatPrompt actor.name zoneName "Air"], actor.items) := by
    simp only [triggerAirSupplyRoll, hair]
    rw [if_neg hneg]
  rw [he]
  exact ⟨rfl, fun _ => rfl, rfl⟩

/-- Witness for C9 at a concrete actor with positive air. -/
theorem roll_failure_fallback_prompt_witness :
    (triggerAirSupplyRoll (Except.error ())
        ⟨"act1", "Ripley", some ⟨3⟩, [], none⟩ "Vacuum").1
      = [Event.rollAttempt "act1"
            ((Actor.mk "act1" "Ripley" (some ⟨3⟩) [] none).tokenDisposition
              == some (-1)) (3 : Int),
        Event.chatPrompt "Ripley" "Vacuum" "Air"]
    ∧ (∀ oracle : Except Unit Nat,
        (triggerAirSupplyRoll oracle
            { Actor.mk "act1" "Ripley" (some ⟨3⟩) [] none with
                consumablesAir := none } "Vacuum").1
          = [Event.chatPrompt "Ripley" "Vacuum" "Air"])
    ∧ (triggerAirSupplyRoll (Except.error ())
        ⟨"act1", "Ripley", some ⟨3⟩, [], none⟩ "Vacuum").2
      = (Actor.mk "act1" "Ripley" (some ⟨3⟩) [] none).items :=
  roll_failure_fallback_prompt ⟨"act1", "Ripley", some ⟨3⟩, [], none⟩
    "Vacuum" ⟨3⟩ rfl (by decide)

/-! ### Correlator lemmas -/

theorem Table.get_set (t : Table) (k : String) (v : List String) :
    Table.get (Table.set t k v) k = some v := by
  simp [Table.set, Table.get, List.lookup]

theorem Table.get_del (t : Table) (k : String) :
    Table.get (Table.del t k) k = none := by
  induction t with
  | nil => rfl
  | cons p t ih =>
    obtain ⟨k1, v1⟩ := p
    show Table.get (List.filter (fun q => q.1 != k) ((k1, v1) :: t)) k = none
    rw [List.filter_cons]
    cases h : ((k1, v1).1 != k) with
    | false =>
      rw [if_neg (by simp)]
      exact ih
    | true =>
      rw [if_pos rfl]
      have hne : (k == k1) = false := by
        have h1 : k1 ≠ k := by simpa using h
        exact beq_eq_false_iff_ne.mpr (fun hh => h1 hh.symm)
      show List.lookup k ((k1, v1) :: List.filter (fun q => q.1 != k) t) = none
      simp only [List.lookup, hne]
      exact ih

theorem contains_dedupKeepFirst (old : List String) (x : String) :
    (dedupKeepFirst old).contains x = old.contains x := by
  by_cases h : x ∈ old
  · have h1 : (dedupKeepFirst old).contains x = true :=
      List.elem_iff.mpr ((mem_dedupKeepFirst old x).mpr h)
    have h2 : old.contains x = true := List.elem_iff.mpr h
    rw [h1, h2]
  · have h1 : (dedupKeepFirst old).contains x = false := by
      cases hc : (dedupKeepFirst old).contains x with
      | false => rfl
      | true =>
        exact absurd ((mem_dedupKeepFirst old x).mp (List.elem_iff.mp hc)) h
    have h2 : old.contains x = false := by
      cases hc : old.contains x with
      | false => rfl
      | true => exact absurd (List.elem_iff.mp hc) h
    rw [h1, h2]

theorem enteredIds_dedup_left (old new : List String) :
    enteredIds (dedupKeepFirst old) new = enteredIds old new := by
  unfold enteredIds
  exact List.filter_congr (fun x _ => by rw [contains_dedupKeepFirst])

theorem processEntries_all_ok (env : HookEnv) (tok : TokenDoc)
    (oldIds : List String) (hpost : ∀ r, env.postOk r = true) :
    ∀ newIds : List String,
      processEntries env tok oldIds newIds
        = ((newIds.filter (fun rid => !oldIds.contains rid)).filterMap
            (fun rid => (env.sceneRegions rid).map (postZoneEntryMessage tok)),
          true) := by
  intro newIds
  induction newIds with
  | nil => rfl
  | cons rid rest ih =>
    by_cases hm : rid ∈ oldIds
    · have hc : oldIds.contains rid = true := List.elem_iff.mpr hm
      simp [processEntries, hc, hm, ih, List.filter_cons]
    · have hc : oldIds.contains rid = false := by
        cases hcc : oldIds.contains rid with
        | false => rfl
        | true => exact absurd (List.elem_iff.mp hcc) hm
      cases hreg : env.sceneRegions rid with
      | none => simp [processEntries, hc, hm, hreg, ih, List.filter_cons]
      | some region =>
        simp [processEntries, hc, hm, hreg, hpost rid, ih, List.filter_cons]

/-- Positionality of a change, in the form the before-handler tests
(`change.x !== undefined || change.y !== undefined`). -/
theorem change_gate (change : Change)
    (h : (change.x.isSome || change.y.isSome) = true) :
    (change.x.isNone && change.y.isNone) = false := by
  cases hx : change.x <;> cases hy : change.y <;> simp_all

/-- The normal path of the after-handler: on a positional change of a
player-owned token, when every entry-notification post succeeds, the hook
deletes the token's table entry, reports completion, and emits exactly
one entry chat message per entered region id that resolves in the scene
registry, in iteration order. -/
theorem updateToken_normal (env : HookEnv) (table : Table) (tok : TokenDoc)
    (change : Change) (hchange : (change.x.isSome || change.y.isSome) = true)
    (howner : tok.hasPlayerOwner = true)
    (hpost : ∀ r, env.postOk r = true) :
    updateToken env table tok change
      = ⟨Table.del table tok.id,
        (enteredIds ((Table.get table tok.id).getD []) tok.regions).filterMap
          (fun rid => (env.sceneRegions rid).map (postZoneEntryMessage tok)),
        true⟩ := by
  have h1 := change_gate change hchange
  simp only [updateToken, h1, howner, Bool.not_true, Bool.false_eq_true,
    if_false]
  rw [processEntries_all_ok env tok _ hpost]
  rfl

/-! ## Claim C2 -/

/-- **C2** counterexample: on a positional move of a non-player-owned
token, the before-handler inserts a snapshot, and the after-handler
returns at the ownership gate *before* the cleanup line — the run
completes (`ok = true`) yet the Pending-Transition Table still holds the
token's entry, contradicting the claim that no entry remains on every
branch. -/
theorem pending_table_leak_counterexample :
    (moveCycle ⟨fun _ => none, fun _ => true⟩ []
        ⟨"npc1", "Guard", false, [], none⟩ ["rA"] ["rA", "rB"]
        ⟨some 100, none⟩).ok = true
    ∧ (moveCycle ⟨fun _ => none, fun _ => true⟩ []
        ⟨"npc1", "Guard", false, [], none⟩ ["rA"] ["rA", "rB"]
        ⟨some 100, none⟩).table.get "npc1" = some ["rA"] :=
  ⟨rfl, rfl⟩

/-- **C2 (amended)**: after a full move cycle the Pending-Transition
Table holds no entry for the token on the normal path (positional change
of a player-owned token, posts succeeding); a non-positional change
inserts nothing and leaves the table unchanged; but on a positional move
of a *non-player-owned* token the after-handler returns before the
cleanup, so the snapshot inserted by the before-handler remains in the
table. -/
theorem pending_table_cleanup_per_branch (env : HookEnv) (table : Table)
    (tok : TokenDoc) (old new : List String) (change : Change)
    (hpost : ∀ r, env.postOk r = true) :
    ((change.x.isSome || change.y.isSome) = true → tok.hasPlayerOwner = true →
      (moveCycle env table tok old new change).table.get tok.id = none)
    ∧ ((change.x.isSome || change.y.isSome) = false →
      (moveCycle env table tok old new change).table = table)
    ∧ ((change.x.isSome || change.y.isSome) = true →
      tok.hasPlayerOwner = false →
      (moveCycle env table tok old new change).table.get tok.id
        = some (dedupKeepFirst old)) := by
  refine ⟨?_, ?_, ?_⟩
  · intro hch hown
    have h1 : preUpdateToken table { tok with regions := old } change
        = Table.set table tok.id (dedupKeepFirst old) := by
      simp [preUpdateToken, hch]
    unfold moveCycle
    rw [h1, updateToken_normal env (Table.set table tok.id (dedupKeepFirst old))
      { tok with regions := new } change hch
      (show ({ tok with regions := new } : TokenDoc).hasPlayerOwner = true from hown)
      hpost]
    exact Table.get_del _ _
  · intro hch
    have h0 : (change.x.isNone && change.y.isNone) = true := by
      cases hx : change.x <;> cases hy : change.y <;> simp_all
    have h1 : preUpdateToken table { tok with regions := old } change
        = table := by
      simp [preUpdateToken, hch]
    unfold moveCycle
    rw [h1]
    simp [updateToken, h0]
  · intro hch hown
    have h0 := change_gate change hch
    have h1 : preUpdateToken table { tok with regions := old } change
        = Table.set table tok.id (dedupKeepFirst old) := by
      simp [preUpdateToken, hch]
    unfold moveCycle
    rw [h1]
    simp only [updateToken, h0, Bool.false_eq_true, if_false]
    rw [if_pos (by simp [hown])]
    exact Table.get_set _ _ _

/-- Witness for C2 (amended): normal path cleans the entry; non-player
positional path leaves the snapshot. -/
theorem pending_table_cleanup_per_branch_witness :
    (moveCycle ⟨fun _ => none, fun _ => true⟩ []
        ⟨"t1", "Ripley", true, [], none⟩ ["rA"] ["rB"]
        ⟨some 1, none⟩).table.get "t1" = none
    ∧ (moveCycle ⟨fun _ => none, fun _ => true⟩ []
        ⟨"npc", "Guard", false, [], none⟩ ["rA"] ["rB"]
        ⟨some 1, none⟩).table.get "npc" = some (dedupKeepFirst ["rA"]) :=
  ⟨(pending_table_cleanup_per_branch ⟨fun _ => none, fun _ => true⟩ []
      ⟨"t1", "Ripley", true, [], none⟩ ["rA"] ["rB"] ⟨some 1, none⟩
      (fun _ => rfl)).1 rfl rfl,
    (pending_table_cleanup_per_branch ⟨fun _ => none, fun _ => true⟩ []
      ⟨"npc", "Guard", false, [], none⟩ ["rA"] ["rB"] ⟨some 1, none⟩
      (fun _ => rfl)).2.2 rfl rfl⟩

/-! ## Claim C3 -/

/-- **C3** counterexample: a player-owned token makes a positional move
into a registry-resolvable region whose `zoneType` is `"unbreathable"`
(whose config has `hasSupplyRoll = true`), yet the after-move hook emits
only the entry chat message and zero roll invocations — it posts via
`postZoneEntryMessage` directly and never yields the event to the Entry
Dispatcher `handleZoneEntry`, which on the same inputs *would* have
invoked the resource-roll collaborator once. -/
theorem live_path_no_dispatch_counterexample :
    (updateToken
        ⟨fun rid => if rid == "r1" then
            some ⟨"r1", "Airlock", some true, some "unbreathable"⟩ else none,
          fun _ => true⟩ []
        ⟨"t1", "Ripley", true, ["r1"],
          some ⟨"a1", "Ripley", some ⟨3⟩, [], none⟩⟩
        ⟨some 5, none⟩).events
      = [Event.chatEntry "ALIENZONE.EnteredUnbreathableZone" "Ripley" "Airlock"]
    ∧ (updateToken
        ⟨fun rid => if rid == "r1" then
            some ⟨"r1", "Airlock", some true, some "unbreathable"⟩ else none,
          fun _ => true⟩ []
        ⟨"t1", "Ripley", true, ["r1"],
          some ⟨"a1", "Ripley", some ⟨3⟩, [], none⟩⟩
        ⟨some 5, none⟩).events.countP Event.isRollAttempt = 0
    ∧ (getZoneTypeConfig (some "unbreathable")).hasSupplyRoll = true
    ∧ (handleZoneEntry
        ⟨fun rid => if rid == "r1" then
            some ⟨"r1", "Airlock", some true, some "unbreathable"⟩ else none,
          fun _ => true⟩
        ⟨"alienrpg", Except.ok 0⟩
        ⟨"t1", "Ripley", true, ["r1"],
          some ⟨"a1", "Ripley", some ⟨3⟩, [], none⟩⟩
        ⟨"r1", "Airlock", some true, some "unbreathable"⟩).1.countP
        Event.isRollAttempt = 1 :=
  ⟨rfl, rfl, rfl, rfl⟩

/-- **C3 (amended)**: on a positional move of a player-owned token with
all entry posts succeeding, the after-move hook itself posts — for each
newly-entered region id that resolves in the host registry, in iteration
order, awaiting each before the next — the entry chat message
(`postZoneEntryMessage`), skipping unresolvable ids silently; it never
invokes the Entry Dispatcher, so no roll invocation ever appears in the
hook's trace, even for `"unbreathable"` regions. -/
theorem live_entry_path_posts_directly (env : HookEnv) (table : Table)
    (tok : TokenDoc) (change : Change)
    (hchange : (change.x.isSome || change.y.isSome) = true)
    (howner : tok.hasPlayerOwner = true)
    (hpost : ∀ r, env.postOk r = true) :
    (updateToken env table tok change).events
      = (enteredIds ((Table.get table tok.id).getD []) tok.regions).filterMap
          (fun rid => (env.sceneRegions rid).map (postZoneEntryMessage tok))
    ∧ (∀ e ∈ (updateToken env table tok change).events,
        e.isRollAttempt = false)
    ∧ (updateToken env table tok change).ok = true := by
  rw [updateToken_normal env table tok change hchange howner hpost]
  refine ⟨rfl, ?_, rfl⟩
  intro e he
  rcases List.mem_filterMap.mp he with ⟨rid, _, hsome⟩
  cases hreg : env.sceneRegions rid with
  | none =>
    rw [hreg] at hsome
    simp at hsome
  | some region =>
    rw [hreg] at hsome
    simp only [Option.map_some'] at hsome
    rw [← Option.some.inj hsome]
    rfl

/-- Witness for C3 (amended) at a concrete one-region move. -/
theorem live_entry_path_posts_directly_witness :
    (updateToken
        ⟨fun rid => if rid == "r1" then
            some ⟨"r1", "Dock", none, none⟩ else none, fun _ => true⟩ []
        ⟨"t1", "Ripley", true, ["r1"], none⟩ ⟨some 5, none⟩).events
      = (enteredIds ((Table.get [] "t1").getD []) ["r1"]).filterMap
          (fun rid =>
            ((⟨fun i => if i == "r1" then
                some ⟨"r1", "Dock", none, none⟩ else none,
              fun _ => true⟩ : HookEnv).sceneRegions rid).map
              (postZoneEntryMessage ⟨"t1", "Ripley", true, ["r1"], none⟩))
    ∧ (∀ e ∈ (updateToken
        ⟨fun rid => if rid == "r1" then
            some ⟨"r1", "Dock", none, none⟩ else none, fun _ => true⟩ []
        ⟨"t1", "Ripley", true, ["r1"], none⟩ ⟨some 5, none⟩).events,
        e.isRollAttempt = false)
    ∧ (updateToken
        ⟨fun rid => if rid == "r1" then
            some ⟨"r1", "Dock", none, none⟩ else none, fun _ => true⟩ []
        ⟨"t1", "Ripley", true, ["r1"], none⟩ ⟨some 5, none⟩).ok = true :=
  live_entry_path_posts_directly
    ⟨fun rid => if rid == "r1" then some ⟨"r1", "Dock", none, none⟩ else none,
      fun _ => true⟩ [] ⟨"t1", "Ripley", true, ["r1"], none⟩ ⟨some 5, none⟩
    rfl rfl (fun _ => rfl)

/-! ## Claim C4 -/

/-- **C4** counterexample: during one positional move of a player-owned
token entering resolvable regions `rA` then `rB`, the entry-notification
post for `rA` throws. Nothing catches it at the dispatch boundary: the
hook aborts (`ok = false`) with an empty event trace — the entry event
for the remaining region `rB` (which was entered and resolvable) is never
processed — and the table entry is not cleaned up either. -/
theorem post_failure_abort_counterexample :
    (updateToken
        ⟨fun rid => if rid == "rA" then some ⟨"rA", "Alpha", none, none⟩
          else if rid == "rB" then some ⟨"rB", "Beta", none, none⟩ else none,
          fun rid => rid != "rA"⟩
        [("t1", [])] ⟨"t1", "Ripley", true, ["rA", "rB"], none⟩
        ⟨some 5, none⟩).events = []
    ∧ (updateToken
        ⟨fun rid => if rid == "rA" then some ⟨"rA", "Alpha", none, none⟩
          else if rid == "rB" then some ⟨"rB", "Beta", none, none⟩ else none,
          fun rid => rid != "rA"⟩
        [("t1", [])] ⟨"t1", "Ripley", true, ["rA", "rB"], none⟩
        ⟨some 5, none⟩).ok = false
    ∧ (updateToken
        ⟨fun rid => if rid == "rA" then some ⟨"rA", "Alpha", none, none⟩
          else if rid == "rB" then some ⟨"rB", "Beta", none, none⟩ else none,
          fun rid => rid != "rA"⟩
        [("t1", [])] ⟨"t1", "Ripley", true, ["rA", "rB"], none⟩
        ⟨some 5, none⟩).table.get "t1" = some []
    ∧ "rB" ∈ enteredIds [] ["rA", "rB"]
    ∧ (if ("rB" : String) == "rA" then some (Region.mk "rA" "Alpha" none none)
        else if ("rB" : String) == "rB" then some (Region.mk "rB" "Beta" none none)
        else none) = some (Region.mk "rB" "Beta" none none) :=
  ⟨rfl, rfl, rfl, by decide, rfl⟩

/-- **C4 (amended)**: an exception thrown by the entry-notification post
is *not* caught at the live dispatch boundary: the hook aborts processing
of the remaining newly-entered regions of that move (no further entry
events) and skips the table cleanup. Later move cycles are unaffected:
any subsequent positional move of the token overwrites the stale
snapshot in its before-handler and, with posts succeeding, yields exactly
that cycle's entry events and cleans the table. -/
theorem post_failure_abort_and_recovery :
    (∀ (env : HookEnv) (table : Table) (tok : TokenDoc) (change : Change)
        (r₁ r₂ : String) (reg₁ : Region),
      (change.x.isSome || change.y.isSome) = true →
      tok.hasPlayerOwner = true →
      tok.regions = [r₁, r₂] →
      (Table.get table tok.id).getD [] = [] →
      env.sceneRegions r₁ = some reg₁ →
      env.postOk r₁ = false →
      updateToken env table tok change = ⟨table, [], false⟩)
    ∧ (∀ (env : HookEnv) (table : Table) (tok : TokenDoc)
        (old new : List String) (change : Change),
      (change.x.isSome || change.y.isSome) = true →
      tok.hasPlayerOwner = true →
      (∀ r, env.postOk r = true) →
      (moveCycle env table tok old new change).table.get tok.id = none
        ∧ (moveCycle env table tok old new change).events
          = (enteredIds old new).filterMap
              (fun rid => (env.sceneRegions rid).map
                (postZoneEntryMessage { tok with regions := new }))) := by
  constructor
  · intro env table tok change r₁ r₂ reg₁ hch hown hregs hget hres₁ hfail
    have h0 := change_gate change hch
    simp [updateToken, h0, hown, hget, hregs, dedupKeepFirst, dedupGo,
      processEntries, hres₁, hfail]
  · intro env table tok old new change hch hown hpost
    have h1 : preUpdateToken table { tok with regions := old } change
        = Table.set table tok.id (dedupKeepFirst old) := by
      simp [preUpdateToken, hch]
    unfold moveCycle
    rw [h1, updateToken_normal env (Table.set table tok.id (dedupKeepFirst old))
      { tok with regions := new } change hch
      (show ({ tok with regions := new } : TokenDoc).hasPlayerOwner = true from hown)
      hpost]
    constructor
    · exact Table.get_del _ _
    · show (enteredIds ((Table.get
          (Table.set table tok.id (dedupKeepFirst old)) tok.id).getD [])
            new).filterMap _ = _
      rw [Table.get_set]
      rw [show (some (dedupKeepFirst old)).getD [] = dedupKeepFirst old from rfl]
      rw [enteredIds_dedup_left]

/-- Witness for C4 (amended) at concrete inputs: the aborting move and a
clean follow-up cycle. -/
theorem post_failure_abort_and_recovery_witness :
    updateToken
        ⟨fun rid => if rid == "rA" then some ⟨"rA", "Alpha", none, none⟩
          else none, fun rid => rid != "rA"⟩
        [("t1", [])] ⟨"t1", "Ripley", true, ["rA", "rB"], none⟩
        ⟨some 5, none⟩
      = ⟨[("t1", [])], [], false⟩
    ∧ ((moveCycle ⟨fun _ => none, fun _ => true⟩ [("t1", ["stale"])]
          ⟨"t1", "Ripley", true, [], none⟩ ["rA"] ["rB"]
          ⟨some 1, none⟩).table.get "t1" = none
        ∧ (moveCycle ⟨fun _ => none, fun _ => true⟩ [("t1", ["stale"])]
            ⟨"t1", "Ripley", true, [], none⟩ ["rA"] ["rB"]
            ⟨some 1, none⟩).events
          = (enteredIds ["rA"] ["rB"]).filterMap
              (fun rid =>
                ((⟨fun _ => none, fun _ => true⟩ : HookEnv).sceneRegions rid).map
                  (postZoneEntryMessage
                    { (⟨"t1", "Ripley", true, [], none⟩ : TokenDoc) with
                        regions := ["rB"] }))) :=
  ⟨post_failure_abort_and_recovery.1
      ⟨fun rid => if rid == "rA" then some ⟨"rA", "Alpha", none, none⟩
        else none, fun rid => rid != "rA"⟩
      [("t1", [])] ⟨"t1", "Ripley", true, ["rA", "rB"], none⟩
      ⟨some 5, none⟩ "rA" "rB" ⟨"rA", "Alpha", none, none⟩
      rfl rfl rfl rfl rfl rfl,
    post_failure_abort_and_recovery.2 ⟨fun _ => none, fun _ => true⟩
      [("t1", ["stale"])] ⟨"t1", "Ripley", true, [], none⟩ ["rA"] ["rB"]
      ⟨some 1, none⟩ rfl rfl (fun _ => rfl)⟩

/-! ## Claim C10 -/

theorem postZoneEntryMessage_flag_blind (tok : TokenDoc) (r : Region)
    (b : Option Bool) :
    postZoneEntryMessage tok { r with isAlienZoneFlag := b }
      = postZoneEntryMessage tok r := rfl

theorem processEntries_flag_blind (env : HookEnv) (b : String → Option Bool)
    (tok : TokenDoc) (oldIds : List String) :
    ∀ newIds,
      processEntries
        ⟨fun rid => (env.sceneRegions rid).map
            (fun r => { r with isAlienZoneFlag := b rid }), env.postOk⟩
        tok oldIds newIds
      = processEntries env tok oldIds newIds := by
  intro newIds
  induction newIds with
  | nil => rfl
  | cons rid rest ih =>
    cases hreg : env.sceneRegions rid with
    | none =>
      simp [processEntries, hreg, ih]
    | some r =>
      simp [processEntries, hreg, ih, postZoneEntryMessage_flag_blind]

theorem updateToken_flag_blind (env : HookEnv) (b : String → Option Bool)
    (table : Table) (tok : TokenDoc) (change : Change) :
    updateToken
        ⟨fun rid => (env.sceneRegions rid).map
            (fun r => { r with isAlienZoneFlag := b rid }), env.postOk⟩
        table tok change
      = updateToken env table tok change := by
  simp only [updateToken, processEntries_flag_blind]

/-- **C10**: the live entry path never consults the `isAlienZone` flag:
(1) rewriting the `isAlienZoneFlag` of every region in the registry
arbitrarily leaves the whole hook result — events, table, completion —
unchanged (the predicate cannot have been invoked); and (2) for every
newly-entered, registry-resolvable region on a player-owned token's
positional move — in particular one whose flag store lacks the Alien
Zone mark (`isAlienZone` is `false`) — the entry chat message is still
posted. -/
theorem live_path_ignores_isAlienZone (env : HookEnv)
    (b : String → Option Bool) (table : Table) (tok : TokenDoc)
    (change : Change) (rid : String) (reg : Region) :
    (updateToken
        ⟨fun i => (env.sceneRegions i).map
            (fun r => { r with isAlienZoneFlag := b i }), env.postOk⟩
        table tok change
      = updateToken env table tok change)
    ∧ ((change.x.isSome || change.y.isSome) = true →
      tok.hasPlayerOwner = true →
      (∀ r, env.postOk r = true) →
      rid ∈ enteredIds ((Table.get table tok.id).getD []) tok.regions →
      env.sceneRegions rid = some reg →
      isAlienZone reg = false →
      postZoneEntryMessage tok reg ∈ (updateToken env table tok change).events) := by
  constructor
  · exact updateToken_flag_blind env b table tok change
  · intro hch hown hpost hin hres _
    rw [updateToken_normal env table tok change hch hown hpost]
    exact List.mem_filterMap.mpr ⟨rid, hin, by rw [hres]; rfl⟩

/-- Witness for C10 at a concrete unflagged region. -/
theorem live_path_ignores_isAlienZone_witness :
    (updateToken
        ⟨fun i => ((fun j => if j == "r1" then
            some (Region.mk "r1" "Dock" none none) else none : String → Option Region) i).map
            (fun r => { r with isAlienZoneFlag := some true }),
          fun _ => true⟩ [] ⟨"t1", "Ripley", true, ["r1"], none⟩
        ⟨some 5, none⟩
      = updateToken
          ⟨fun j => if j == "r1" then
              some (Region.mk "r1" "Dock" none none) else none, fun _ => true⟩
          [] ⟨"t1", "Ripley", true, ["r1"], none⟩ ⟨some 5, none⟩)
    ∧ postZoneEntryMessage ⟨"t1", "Ripley", true, ["r1"], none⟩
        (Region.mk "r1" "Dock" none none)
      ∈ (updateToken
          ⟨fun j => if j == "r1" then
              some (Region.mk "r1" "Dock" none none) else none, fun _ => true⟩
          [] ⟨"t1", "Ripley", true, ["r1"], none⟩ ⟨some 5, none⟩).events :=
  ⟨(live_path_ignores_isAlienZone
      ⟨fun j => if j == "r1" then some (Region.mk "r1" "Dock" none none)
        else none, fun _ => true⟩ (fun _ => some true) []
      ⟨"t1", "Ripley", true, ["r1"], none⟩ ⟨some 5, none⟩ "r1"
      (Region.mk "r1" "Dock" none none)).1,
    (live_path_ignores_isAlienZone
      ⟨fun j => if j == "r1" then some (Region.mk "r1" "Dock" none none)
        else none, fun _ => true⟩ (fun _ => some true) []
      ⟨"t1", "Ripley", true, ["r1"], none⟩ ⟨some 5, none⟩ "r1"
      (Region.mk "r1" "Dock" none none)).2 rfl rfl (fun _ => rfl)
      (by decide) rfl rfl⟩
